import Mathlib

/-!
Verification of the build-time page/content derivation pipeline of the
`gatsby-node.js` configuration layer (slug derivation, markdown field
extraction, inline SVG handling, and route synthesis).

The JavaScript source is shallowly embedded: each lifecycle hook becomes a
pure Lean function over explicit inputs, with the host framework's
collaborators (`createNodeId`, `createContentDigest`, `getNode`,
`loadNodeContent`, `svgo.optimize`, the GraphQL query layer) passed in as
function or `Except` parameters.  Side effects (console logging, node and
field creation, page registration) are reified as values in result lists.
-/

namespace GatsbyNode

/-! ## JavaScript value model

The markdown field extractor walks an arbitrary JSON-like object.  The
source distinguishes exactly three kinds of values:
  * `typeof value === "string"` — a string leaf;
  * `value && typeof value === "object"` — a truthy object (including
    arrays, whose `Object.entries` keys are numeric strings): recursed into;
  * everything else (numbers, booleans, `null`, `undefined`, functions) —
    ignored.
An object is its ordered list of `Object.entries`; `JEntries` encodes that
list with the value kind of each entry distinguished by the constructor. -/
inductive JEntries where
  /-- End of the entry list. -/
  | nil : JEntries
  /-- An entry whose value is a string. -/
  | strCons (key : String) (value : String) (rest : JEntries) : JEntries
  /-- An entry whose value is a (truthy) nested object. -/
  | objCons (key : String) (sub : JEntries) (rest : JEntries) : JEntries
  /-- An entry whose value is neither a string nor a truthy object. -/
  | otherCons (key : String) (rest : JEntries) : JEntries
deriving DecidableEq

/-- JavaScript `String.prototype.startsWith`: the prefix's characters are a
prefix of the string's characters. -/
def jsStartsWith (s pre : String) : Bool :=
  pre.data.isPrefixOf s.data

/-- JavaScript truthiness of a possibly-absent string value (`undefined` and
the empty string are falsy). -/
def truthyStr : Option String → Bool
  | none => false
  | some s => s ≠ ""

/-! ## Markdown field extractor (`createFieldsForObject`) -/

/-- A derived markdown node, as assembled by `createFieldsForObject`:
`{ id, key, children: [], parent, internal: { type: "JsonMarkdownField",
mediaType: "text/markdown", content, contentDigest } }`.  The constant
`internal.type` / `internal.mediaType` strings and the empty `children`
array are left implicit.  `keyPath` is ghost data recording the traversal
position (the keys from the root payload down to this field); it is
determined by the recursion and carried only so that properties about
traversal positions can be stated. -/
structure MdNode where
  id : String
  key : String
  parent : String
  content : String
  digest : String
  keyPath : List String
deriving DecidableEq

/-- Shallow embedding of `createFieldsForObject(obj, path)` from
`gatsby-node.js`, parametrised
by the host collaborators `createNodeId` (`cni`) and `createContentDigest`
(`dig`) and by the id of the node being processed (`parentId`).  For each
entry: `newPath = path + key`; a string value whose key starts with `"md"`
yields one created node with `id = createNodeId(newPath)` and
`contentDigest = createContentDigest(value)`; a nested object recurses with
path `newPath + "_"`; other values are ignored.  The returned list is the
sequence of `createNode` calls in execution order.  `kp` accumulates the
ghost traversal position. -/
def createFieldsForObject (cni dig : String → String) (parentId : String) :
    JEntries → String → List String → List MdNode
  | .nil, _, _ => []
  | .strCons key value rest, path, kp =>
      (if jsStartsWith key "md" then
        [{ id := cni (path ++ key), key := key, parent := parentId,
           content := value, digest := dig value, keyPath := kp ++ [key] }]
      else []) ++ createFieldsForObject cni dig parentId rest path kp
  | .objCons key sub rest, path, kp =>
      createFieldsForObject cni dig parentId sub (path ++ key ++ "_") (kp ++ [key])
        ++ createFieldsForObject cni dig parentId rest path kp
  | .otherCons _ rest, path, kp =>
      createFieldsForObject cni dig parentId rest path kp

/-- The top-level invocation `createFieldsForObject(node, node.id + "_")`
performed for every `PagesJson` node, where `payload` is the node object's
entry list. -/
def extractMdNodes (cni dig : String → String) (nodeId : String)
    (payload : JEntries) : List MdNode :=
  createFieldsForObject cni dig nodeId payload (nodeId ++ "_") []

/-- Specification-side count of extractable fields: the number of
string-valued entries, at any depth, whose key starts with the markdown
marker. -/
def mdFieldCount : JEntries → Nat
  | .nil => 0
  | .strCons key _ rest =>
      (if jsStartsWith key "md" then 1 else 0) + mdFieldCount rest
  | .objCons _ sub rest => mdFieldCount sub + mdFieldCount rest
  | .otherCons _ rest => mdFieldCount rest

/-- Specification-side list of the traversal positions (key paths) of all
extractable fields, in traversal order, starting below the position `kp`. -/
def mdFieldPaths : JEntries → List String → List (List String)
  | .nil, _ => []
  | .strCons key _ rest, kp =>
      (if jsStartsWith key "md" then [kp ++ [key]] else []) ++ mdFieldPaths rest kp
  | .objCons key sub rest, kp =>
      mdFieldPaths sub (kp ++ [key]) ++ mdFieldPaths rest kp
  | .otherCons _ rest, kp => mdFieldPaths rest kp

/-- True iff no key anywhere in the payload contains the underscore
character used by `createFieldsForObject` as its path separator. -/
def underscoreFreeKeys : JEntries → Bool
  | .nil => true
  | .strCons key _ rest => decide ('_' ∉ key.data) && underscoreFreeKeys rest
  | .objCons key sub rest =>
      decide ('_' ∉ key.data) && (underscoreFreeKeys sub && underscoreFreeKeys rest)
  | .otherCons key rest => decide ('_' ∉ key.data) && underscoreFreeKeys rest

/-- The underscore-joined rendering of a key path, as accumulated by the
extractor: `enc [k] = k` and `enc (k :: t) = k ++ "_" ++ enc t`. -/
def encPath : List String → String
  | [] => ""
  | [k] => k
  | k :: t => k ++ "_" ++ encPath t

/-! ## Node processing (`onCreateNode`)

`onCreateNode` runs three phases over one node: slug derivation for the
recognised content types, markdown field extraction for `PagesJson` nodes,
and inline SVG handling for `image/svg+xml` nodes.  Logging and creation
side effects are reified as `NodeEffect` values in execution order. -/

/-- A side effect performed by `onCreateNode`. -/
inductive NodeEffect where
  /-- Logging via `console.warn`. -/
  | warn (msg : String) : NodeEffect
  /-- Logging via `console.error`. -/
  | logError (msg : String) : NodeEffect
  /-- A call `createNodeField({ node, name, value })`. -/
  | createNodeField (nodeId fieldName value : String) : NodeEffect
  /-- A call `createNode(mdNode)` followed by `createParentChildLink`, for a
  derived markdown node. -/
  | createMdNode (n : MdNode) : NodeEffect
  /-- A call `createNode(svgNode)` followed by `createParentChildLink`, for an
  `InlineSvg` node: `{ id, children: [], rawSvg, parent,
  internal: { type: "InlineSvg", contentDigest } }`. -/
  | createSvgNode (id rawSvg parent digest : String) : NodeEffect
deriving DecidableEq

/-- The parent `File` node as resolved by `getNode(node.parent)`; `name` is
the file's base name. -/
structure FileNode where
  name : String
deriving DecidableEq

/-- The fields of the node being processed that `onCreateNode` reads:
`node.id`, `node.parent`, `node.internal.type`, `node.internal.mediaType`,
and (for `PagesJson` nodes) the node object's entry list, over which
`createFieldsForObject(node, node.id + "_")` recurses. -/
structure GNode where
  id : String
  parent : String
  internalType : String
  mediaType : Option String
  payload : JEntries

/-- The constant `typesToSlug = ["MarkdownRemark", "PagesJson", "ContentJson"]`. -/
def typesToSlug : List String := ["MarkdownRemark", "PagesJson", "ContentJson"]

/-- Slug phase of `onCreateNode`: for a node of a recognised type, resolve
the parent file node; if it is missing, warn and return early (the `return`
exits all of `onCreateNode`, flagged by the `Bool`); otherwise attach a
`slug` field equal to the parent file's name. -/
def slugPhase (getNode : String → Option FileNode) (node : GNode) :
    List NodeEffect × Bool :=
  if typesToSlug.contains node.internalType then
    match getNode node.parent with
    | none =>
        ([.warn ("Parent file node not found for node: " ++ node.id)], true)
    | some fileNode =>
        ([.createNodeField node.id "slug" fileNode.name], false)
  else ([], false)

/-- Markdown phase of `onCreateNode`: for a `PagesJson` node, every node
returned by `createFieldsForObject` is created and linked. -/
def mdPhase (cni dig : String → String) (node : GNode) : List NodeEffect :=
  if node.internalType = "PagesJson" then
    (extractMdNodes cni dig node.id node.payload).map .createMdNode
  else []

/-- SVG phase of `onCreateNode`: for a node of media type `image/svg+xml`,
load the file content (`loadNodeContent`, an asynchronous collaborator that
may fail) and optimise it (`svgo.optimize`, likewise).  Empty content is
falsy, so it only warns; any failure of the collaborators is caught by the
surrounding `try`/`catch` and logged with the node id; on success one
`InlineSvg` node with `id = createNodeId(node.id)` and
`contentDigest = createContentDigest(rawSvg)` is created and linked. -/
def svgPhase (cni dig : String → String) (loadNodeContent : Except String String)
    (optimize : String → Except String String) (node : GNode) : List NodeEffect :=
  if node.mediaType = some "image/svg+xml" then
    match loadNodeContent with
    | .error e =>
        [.logError ("Error processing SVG file " ++ node.id ++ ": " ++ e)]
    | .ok fileContent =>
        if fileContent = "" then
          [.warn ("Empty content for SVG file: " ++ node.id)]
        else
          match optimize fileContent with
          | .error e =>
              [.logError ("Error processing SVG file " ++ node.id ++ ": " ++ e)]
          | .ok rawSvg =>
              [.createSvgNode (cni node.id) rawSvg node.id (dig rawSvg)]
  else []

/-- The whole `onCreateNode` hook, composing the three phases; a missing parent file node
makes the slug phase return from the whole hook, skipping the later
phases. -/
def onCreateNode (getNode : String → Option FileNode) (cni dig : String → String)
    (loadNodeContent : Except String String)
    (optimize : String → Except String String) (node : GNode) : List NodeEffect :=
  match slugPhase getNode node with
  | (effects, true) => effects
  | (effects, false) =>
      effects ++ mdPhase cni dig node
        ++ svgPhase cni dig loadNodeContent optimize node

/-! ## Route synthesis (`createPages`) -/

/-- The `context` object passed to `createPage`, one shape per template. -/
inductive PageContext where
  /-- Context of a static page: `{ link }`. -/
  | staticCtx (link : String) : PageContext
  /-- Context of a media (announcements/blog) listing page. -/
  | mediaListCtx (limit skip : Nat) (mediaType title : String)
      (numPages currentPage : Nat) (basePage link : String) : PageContext
  /-- Context of an individual media item page: `{ slug, link, mediaType }`. -/
  | mediaPageCtx (slug link mediaType : String) : PageContext
  /-- Context of a news listing page. -/
  | newsListCtx (limit skip numPages currentPage : Nat)
      (basePage link : String) : PageContext
deriving DecidableEq

/-- One `createPage` call: `{ path, component, context }`.  The component
is the template's resolved path. -/
structure RouteDescriptor where
  path : String
  component : String
  context : PageContext
deriving DecidableEq

/-- A `PagesJson` query result node: `{ navigation { link } }`, either of
which may be absent. -/
structure PageNode where
  navigation : Option (Option String)
deriving DecidableEq

/-- A media/news query result node.  The GraphQL selection set is
`nodes { fields { slug } }`, so `slug` is the only property present on the
returned `fields` object. -/
structure MediaQueryFields where
  slug : String
deriving DecidableEq

/-- JavaScript property access `fields.externalLink` on a query result:
the query never selects `externalLink` (and `onCreateNode` never creates
such a field), so the property is absent and the access yields
`undefined`. -/
def MediaQueryFields.externalLink (_ : MediaQueryFields) : Option String := none

/-- A media/news query result node: `{ fields { slug } }`. -/
structure MediaQueryNode where
  fields : MediaQueryFields
deriving DecidableEq

/-- An underlying content item as authored, before the GraphQL projection:
it has a slug and possibly an external link. -/
structure SourceMediaItem where
  slug : String
  externalLink : Option String
deriving DecidableEq

/-- The GraphQL projection of an authored item under the selection set
`nodes { fields { slug } }`: only `slug` survives. -/
def projectFields (item : SourceMediaItem) : MediaQueryNode :=
  { fields := { slug := item.slug } }

/-- Static-pages phase: for each `allPagesJson` node carrying a (truthy)
navigation link, emit one static-page route; nodes with a missing or falsy
link are warned about and skipped. -/
def staticPages (pages : List PageNode) : List RouteDescriptor :=
  pages.filterMap fun p =>
    match p.navigation with
    | none => none
    | some link =>
        if truthyStr link then
          (link.map fun l =>
            { path := l, component := "src/templates/static-page.tsx",
              context := .staticCtx l })
        else none

/-- The constant `pageSize = 10` (announcements/blog listing page size). -/
def pageSize : Nat := 10

/-- Listing pages for one media type: `numPages = Math.ceil(N / pageSize)`
pages (Nat ceiling division), page 0 at `/media/{mediaType}`, page `i > 0`
at `/media/{mediaType}/{i+1}`, each with limit/skip/numbering context. -/
def mediaListRoutes (mediaType title : String) (results : List MediaQueryNode) :
    List RouteDescriptor :=
  let numPages := (results.length + pageSize - 1) / pageSize
  (List.range numPages).map fun i =>
    { path := if i = 0 then "/media/" ++ mediaType
              else "/media/" ++ mediaType ++ "/" ++ toString (i + 1),
      component := "src/templates/media-list.tsx",
      context := .mediaListCtx pageSize (i * pageSize) mediaType title
        numPages (i + 1) ("/media/" ++ mediaType)
        ("/media/" ++ mediaType ++
          (if i > 0 then "/" ++ toString (i + 1) else "")) }

/-- Individual item pages for one media type: one page per result for which
`!results[i].fields.externalLink` holds. -/
def mediaDetailRoutes (mediaType : String) (results : List MediaQueryNode) :
    List RouteDescriptor :=
  results.filterMap fun r =>
    if truthyStr r.fields.externalLink then none
    else some
      { path := "/media/" ++ mediaType ++ "/" ++ r.fields.slug,
        component := "src/templates/media-page.tsx",
        context := .mediaPageCtx r.fields.slug
          ("/media/" ++ mediaType ++ "/" ++ r.fields.slug) mediaType }

/-- News listing pages: `numPages = Math.ceil(N / 15)` pages, page 0 at
`/media/news`, page `i > 0` at `/media/news/{i+1}`. -/
def newsListRoutes (results : List MediaQueryNode) : List RouteDescriptor :=
  let numPages := (results.length + 15 - 1) / 15
  (List.range numPages).map fun i =>
    { path := if i = 0 then "/media/news" else "/media/news/" ++ toString (i + 1),
      component := "src/templates/news-list.tsx",
      context := .newsListCtx 15 (i * 15) numPages (i + 1) "/media/news"
        ("/media/news" ++ (if i > 0 then "/" ++ toString (i + 1) else "")) }

/-- Build abort raised by `createPages` (`throw new Error(...)`). -/
inductive BuildError where
  /-- The error `"Failed to fetch pages"`. -/
  | fetchPagesFailed : BuildError
  /-- The error `"Failed to fetch news articles"`. -/
  | fetchNewsFailed : BuildError
deriving DecidableEq

/-- The constant `mediaTypes = [["announcements", "Announcements"], ["blog", "Blog"]]`. -/
def mediaTypes : List (String × String) :=
  [("announcements", "Announcements"), ("blog", "Blog")]

/-- The GraphQL query outcomes `createPages` consumes: the `allPagesJson`
query, one `allMarkdownRemark` query per media type, and the news query.
`Except.error` models a result carrying `errors`. -/
structure QueryInputs where
  pagesQuery : Except String (List PageNode)
  mediaQuery : String → Except String (List MediaQueryNode)
  newsQuery : Except String (List MediaQueryNode)

/-- Route synthesis `createPages`: returns the pages registered (in execution order) and,
when a fatal query error was hit, the raised `BuildError` (pages registered
before the `throw` remain registered).  A failing pages query aborts before
any page is created; a failing media-category query only skips that
category (`continue`); a failing news query aborts after the static and
media pages have been created. -/
def createPages (q : QueryInputs) : List RouteDescriptor × Option BuildError :=
  match q.pagesQuery with
  | .error _ => ([], some .fetchPagesFailed)
  | .ok pages =>
      let statics := staticPages pages
      let media := mediaTypes.flatMap fun mt =>
        match q.mediaQuery mt.1 with
        | .error _ => []
        | .ok results =>
            mediaListRoutes mt.1 mt.2 results ++ mediaDetailRoutes mt.1 results
      match q.newsQuery with
      | .error _ => (statics ++ media, some .fetchNewsFailed)
      | .ok results =>
          (statics ++ media ++ newsListRoutes results, none)

/-! ## Concrete inputs used by counterexamples and witnesses -/

/-- Ceiling division, the specification's `ceil(N/P)`. -/
def ceilDiv (n p : Nat) : Nat := n / p + (if n % p = 0 then 0 else 1)

/-- Concrete `PagesJson` payload `{ "mdA_mdB": "x", "mdA": { "mdB": "y" } }`
whose two extractable fields sit at distinct key paths (a sibling key at
depth 1 and a key at depth 2) yet produce the same derived identifier. -/
def collidingPayload : JEntries :=
  .strCons "mdA_mdB" "x" (.objCons "mdA" (.strCons "mdB" "y" .nil) .nil)

/-- Payload `{ "mdA": "x", "b": { "mdC": "y" } }`, underscore-free, used to
witness the amended uniqueness statement. -/
def separatedPayload : JEntries :=
  .strCons "mdA" "x" (.objCons "b" (.strCons "mdC" "y" .nil) .nil)

/-- Twelve query-result items, as used to witness the pagination
statement. -/
def twelveItems : List MediaQueryNode := List.replicate 12 ⟨⟨"post"⟩⟩

/-- Twelve authored blog items, of which item 7 carries an external
link. -/
def blogItems12 : List SourceMediaItem :=
  [⟨"a1", none⟩, ⟨"a2", none⟩, ⟨"a3", none⟩, ⟨"a4", none⟩, ⟨"a5", none⟩,
   ⟨"a6", none⟩, ⟨"a7", some "https://example.com/elsewhere"⟩, ⟨"a8", none⟩,
   ⟨"a9", none⟩, ⟨"a10", none⟩, ⟨"a11", none⟩, ⟨"a12", none⟩]

/-- Query outcomes where only the announcements category query fails. -/
def qAnnouncementsFail : QueryInputs :=
  { pagesQuery := .ok [],
    mediaQuery := fun mt =>
      if mt = "announcements" then .error "query failed" else .ok [],
    newsQuery := .ok [] }

/-- Query outcomes where the static-pages query fails. -/
def qPagesFail : QueryInputs :=
  { pagesQuery := .error "query failed",
    mediaQuery := fun _ => .ok [], newsQuery := .ok [] }

/-- Query outcomes where only the news query fails. -/
def qNewsFail : QueryInputs :=
  { pagesQuery := .ok [],
    mediaQuery := fun _ => .ok [], newsQuery := .error "query failed" }

/-- A `PagesJson` node with parent `"p1"`, used to witness the slug
contract. -/
def slugNodeW : GNode :=
  { id := "n1", parent := "p1", internalType := "PagesJson",
    mediaType := none, payload := .nil }

/-- An `image/svg+xml` file node, used to witness SVG failure
containment. -/
def svgNodeW : GNode :=
  { id := "svg1", parent := "dir", internalType := "File",
    mediaType := some "image/svg+xml", payload := .nil }

/-! ## Helper lemmas: markdown extraction -/

/-- The ghost key paths of the extracted nodes are exactly the traversal
positions of the extractable fields, in order. -/
theorem createFieldsForObject_keyPaths (cni dig : String → String) (pid : String) :
    ∀ (o : JEntries) (path : String) (kp : List String),
    (createFieldsForObject cni dig pid o path kp).map MdNode.keyPath
      = mdFieldPaths o kp := by
  intro o
  induction o with
  | nil => intro path kp; simp [createFieldsForObject, mdFieldPaths]
  | strCons key value rest ih =>
      intro path kp
      by_cases h : jsStartsWith key "md" <;>
        simp [createFieldsForObject, mdFieldPaths, h, ih]
  | objCons key sub rest ihs ihr =>
      intro path kp
      simp [createFieldsForObject, mdFieldPaths, ihs, ihr]
  | otherCons key rest ih =>
      intro path kp
      simp [createFieldsForObject, mdFieldPaths, ih]

/-- There are exactly as many extractable-field positions as extractable
fields. -/
theorem mdFieldPaths_length :
    ∀ (o : JEntries) (kp : List String),
    (mdFieldPaths o kp).length = mdFieldCount o := by
  intro o
  induction o with
  | nil => intro kp; simp [mdFieldPaths, mdFieldCount]
  | strCons key value rest ih =>
      intro kp
      by_cases h : jsStartsWith key "md"
      · simp [mdFieldPaths, mdFieldCount, h, ih]
        omega
      · simp [mdFieldPaths, mdFieldCount, h, ih]
  | objCons key sub rest ihs ihr =>
      intro kp
      simp [mdFieldPaths, mdFieldCount, ihs, ihr]
  | otherCons key rest ih =>
      intro kp
      simp [mdFieldPaths, mdFieldCount, ih]

/-- Every extracted node's digest is the digest collaborator applied to the
node's own markdown content. -/
theorem digest_eq_of_mem (cni dig : String → String) (pid : String) :
    ∀ (o : JEntries) (path : String) (kp : List String) (n : MdNode),
    n ∈ createFieldsForObject cni dig pid o path kp →
    n.digest = dig n.content := by
  intro o
  induction o with
  | nil => intro path kp n h; simp [createFieldsForObject] at h
  | strCons key value rest ih =>
      intro path kp n h
      rw [createFieldsForObject] at h
      rcases List.mem_append.1 h with h' | h'
      · by_cases hk : jsStartsWith key "md"
        · simp [hk] at h'
          subst h'
          rfl
        · simp [hk] at h'
      · exact ih path kp n h'
  | objCons key sub rest ihs ihr =>
      intro path kp n h
      rw [createFieldsForObject] at h
      rcases List.mem_append.1 h with h' | h'
      · exact ihs _ _ n h'
      · exact ihr path kp n h'
  | otherCons key rest ih =>
      intro path kp n h
      rw [createFieldsForObject] at h
      exact ih path kp n h

/-- Unfolding of `encPath` on a list with at least two elements. -/
theorem encPath_cons (k : String) (t : List String) (ht : t ≠ []) :
    encPath (k :: t) = k ++ "_" ++ encPath t := by
  cases t with
  | nil => exact absurd rfl ht
  | cons a l => rfl

/-- Character-level reading of `encPath` on a list with at least two
elements. -/
theorem encPath_data_cons (k : String) (t : List String) (ht : t ≠ []) :
    (encPath (k :: t)).data = k.data ++ '_' :: (encPath t).data := by
  rw [encPath_cons k t ht]
  simp [String.data_append]

/-- Shape of every node produced by `createFieldsForObject`: its ghost key
path extends the entry position `kp` by a nonempty tail `t`, its id is the
id collaborator applied to `path` followed by the underscore-joined tail,
and (when the payload's keys are underscore-free) no key of the tail
contains an underscore. -/
theorem createFieldsForObject_shape (cni dig : String → String) (pid : String) :
    ∀ (o : JEntries) (path : String) (kp : List String) (n : MdNode),
    n ∈ createFieldsForObject cni dig pid o path kp →
    ∃ t, t ≠ [] ∧ n.keyPath = kp ++ t ∧ n.id = cni (path ++ encPath t) ∧
      (underscoreFreeKeys o = true → ∀ k ∈ t, '_' ∉ k.data) := by
  intro o
  induction o with
  | nil => intro path kp n h; simp [createFieldsForObject] at h
  | strCons key value rest ih =>
      intro path kp n h
      rw [createFieldsForObject] at h
      rcases List.mem_append.1 h with h' | h'
      · by_cases hk : jsStartsWith key "md"
        · simp [hk] at h'
          subst h'
          refine ⟨[key], by simp, rfl, rfl, ?_⟩
          intro hu k hkmem
          simp at hkmem
          subst hkmem
          simp [underscoreFreeKeys, Bool.and_eq_true] at hu
          exact hu.1
        · simp [hk] at h'
      · obtain ⟨t, htne, hkp, hid, hfree⟩ := ih path kp n h'
        refine ⟨t, htne, hkp, hid, ?_⟩
        intro hu
        simp [underscoreFreeKeys, Bool.and_eq_true] at hu
        exact hfree hu.2
  | objCons key sub rest ihs ihr =>
      intro path kp n h
      rw [createFieldsForObject] at h
      rcases List.mem_append.1 h with h' | h'
      · obtain ⟨t, htne, hkp, hid, hfree⟩ := ihs _ _ n h'
        refine ⟨key :: t, by simp, ?_, ?_, ?_⟩
        · rw [hkp]; simp
        · rw [hid, encPath_cons key t htne, ← String.append_assoc,
            ← String.append_assoc]
        · intro hu k hkmem
          simp [underscoreFreeKeys, Bool.and_eq_true] at hu
          rcases List.mem_cons.1 hkmem with h'' | h''
          · subst h''; exact hu.1
          · exact hfree hu.2.1 k h''
      · obtain ⟨t, htne, hkp, hid, hfree⟩ := ihr path kp n h'
        refine ⟨t, htne, hkp, hid, ?_⟩
        intro hu
        simp [underscoreFreeKeys, Bool.and_eq_true] at hu
        exact hfree hu.2.2
  | otherCons key rest ih =>
      intro path kp n h
      rw [createFieldsForObject] at h
      obtain ⟨t, htne, hkp, hid, hfree⟩ := ih path kp n h
      refine ⟨t, htne, hkp, hid, ?_⟩
      intro hu
      simp [underscoreFreeKeys, Bool.and_eq_true] at hu
      exact hfree hu.2

/-- Splitting a character list at the first separator occurrence is
unambiguous when neither prefix contains the separator. -/
theorem sep_split :
    ∀ (l₁ l₂ r₁ r₂ : List Char), '_' ∉ l₁ → '_' ∉ l₂ →
    l₁ ++ '_' :: r₁ = l₂ ++ '_' :: r₂ → l₁ = l₂ ∧ r₁ = r₂ := by
  intro l₁
  induction l₁ with
  | nil =>
      intro l₂ r₁ r₂ h₁ h₂ heq
      cases l₂ with
      | nil => simpa using heq
      | cons c l₂' =>
          simp at heq
          exact absurd (heq.1 ▸ List.mem_cons_self c l₂') h₂
  | cons c l₁' ih =>
      intro l₂ r₁ r₂ h₁ h₂ heq
      cases l₂ with
      | nil =>
          simp at heq
          exact absurd (heq.1 ▸ List.mem_cons_self c l₁') h₁
      | cons d l₂' =>
          simp at heq
          obtain ⟨hcd, hrest⟩ := heq
          have h₁' : '_' ∉ l₁' := fun hm => h₁ (List.mem_cons_of_mem c hm)
          have h₂' : '_' ∉ l₂' := fun hm => h₂ (List.mem_cons_of_mem d hm)
          obtain ⟨he, hr⟩ := ih l₂' r₁ r₂ h₁' h₂' hrest
          exact ⟨by rw [hcd, he], hr⟩

/-- Injectivity of `encPath` on nonempty lists of underscore-free keys. -/
theorem encPath_inj :
    ∀ (t₁ t₂ : List String), t₁ ≠ [] → t₂ ≠ [] →
    (∀ k ∈ t₁, '_' ∉ k.data) → (∀ k ∈ t₂, '_' ∉ k.data) →
    encPath t₁ = encPath t₂ → t₁ = t₂ := by
  intro t₁
  induction t₁ with
  | nil => intro t₂ h; exact absurd rfl h
  | cons k₁ t₁' ih =>
      intro t₂ _ h₂ne hf₁ hf₂ heq
      cases t₂ with
      | nil => exact absurd rfl h₂ne
      | cons k₂ t₂' =>
          cases ht₁' : t₁' with
          | nil =>
              cases ht₂' : t₂' with
              | nil =>
                  subst ht₁'; subst ht₂'
                  simp only [encPath] at heq
                  rw [heq]
              | cons b l =>
                  subst ht₁'; subst ht₂'
                  have hd := congrArg String.data heq
                  rw [encPath_data_cons k₂ (b :: l) (by simp)] at hd
                  simp only [encPath] at hd
                  have : '_' ∈ k₁.data := by
                    rw [hd]; simp
                  exact absurd this (hf₁ k₁ (List.mem_cons_self _ _))
          | cons a m =>
              cases ht₂' : t₂' with
              | nil =>
                  subst ht₁'; subst ht₂'
                  have hd := congrArg String.data heq
                  rw [encPath_data_cons k₁ (a :: m) (by simp)] at hd
                  simp only [encPath] at hd
                  have : '_' ∈ k₂.data := by
                    rw [← hd]; simp
                  exact absurd this (hf₂ k₂ (List.mem_cons_self _ _))
              | cons b l =>
                  subst ht₁'; subst ht₂'
                  have hd := congrArg String.data heq
                  rw [encPath_data_cons k₁ (a :: m) (by simp),
                      encPath_data_cons k₂ (b :: l) (by simp)] at hd
                  obtain ⟨hk, ht⟩ := sep_split k₁.data k₂.data _ _
                    (hf₁ k₁ (List.mem_cons_self _ _)) (hf₂ k₂ (List.mem_cons_self _ _)) hd
                  have hks : k₁ = k₂ := String.ext hk
                  have hts : encPath (a :: m) = encPath (b :: l) := String.ext ht
                  have := ih (b :: l) (by simp) (by simp)
                    (fun k hk' => hf₁ k (List.mem_cons_of_mem k₁ hk'))
                    (fun k hk' => hf₂ k (List.mem_cons_of_mem k₂ hk'))
                    hts
                  rw [hks, this]

/-! ## Claim theorems -/

/-- Claim C2, counterexample: on the payload
`{ "mdA_mdB": "x", "mdA": { "mdB": "y" } }` of a node with id `"P"`, the
extractor derives both fields' identifiers from the same path string
`"P_mdA_mdB"`, so a sibling key at depth 1 and a key at depth 2 receive
the same derived identifier (shown with the identity id collaborator; any
id collaborator maps the equal path strings to equal identifiers).
Derived identifiers are therefore not unique across the extracted
markdown fields of one node, refuting the claim as stated. -/
theorem mdNode_id_collision :
    ((extractMdNodes (fun s => s) (fun s => s) "P" collidingPayload).map
        fun n => (n.id, n.keyPath))
      = [("P_mdA_mdB", ["mdA_mdB"]), ("P_mdA_mdB", ["mdA", "mdB"])]
    ∧ ¬ ((extractMdNodes (fun s => s) (fun s => s) "P" collidingPayload).Pairwise
        fun a b => a.keyPath ≠ b.keyPath → a.id ≠ b.id) := by
  constructor
  · decide
  · decide

/-- Claim C2, amended: provided no key of the payload contains the
underscore separator and the id collaborator is injective, two extracted
markdown fields of one node at distinct key paths always receive distinct
derived identifiers. -/
theorem mdNode_ids_unique_of_underscoreFree
    (cni dig : String → String) (hcni : Function.Injective cni)
    (nodeId : String) (payload : JEntries)
    (hu : underscoreFreeKeys payload = true)
    (n₁ n₂ : MdNode)
    (h₁ : n₁ ∈ extractMdNodes cni dig nodeId payload)
    (h₂ : n₂ ∈ extractMdNodes cni dig nodeId payload)
    (hne : n₁.keyPath ≠ n₂.keyPath) : n₁.id ≠ n₂.id := by
  obtain ⟨t₁, ht₁ne, hkp₁, hid₁, hf₁⟩ :=
    createFieldsForObject_shape cni dig nodeId payload (nodeId ++ "_") [] n₁ h₁
  obtain ⟨t₂, ht₂ne, hkp₂, hid₂, hf₂⟩ :=
    createFieldsForObject_shape cni dig nodeId payload (nodeId ++ "_") [] n₂ h₂
  intro hid
  apply hne
  rw [hid₁, hid₂] at hid
  have hpaths := hcni hid
  have hdata := congrArg String.data hpaths
  rw [String.data_append, String.data_append] at hdata
  have henc : encPath t₁ = encPath t₂ :=
    String.ext (List.append_cancel_left hdata)
  have ht := encPath_inj t₁ t₂ ht₁ne ht₂ne (hf₁ hu) (hf₂ hu) henc
  rw [hkp₁, hkp₂, ht]

/-- Witness for the amended C2 statement at the concrete underscore-free
payload `{ "mdA": "x", "b": { "mdC": "y" } }`: its two extracted nodes
have distinct identifiers. -/
theorem mdNode_ids_unique_witness :
    ({ id := "P_mdA", key := "mdA", parent := "P", content := "x",
       digest := "x", keyPath := ["mdA"] } : MdNode).id
      ≠ ({ id := "P_b_mdC", key := "mdC", parent := "P", content := "y",
           digest := "y", keyPath := ["b", "mdC"] } : MdNode).id :=
  mdNode_ids_unique_of_underscoreFree (fun s => s) (fun s => s)
    (fun _ _ h => h) "P" separatedPayload (by decide) _ _
    (by decide) (by decide) (by decide)

/-- Claim C5: on any nested payload, the extractor creates exactly one
derived markdown node per string-valued field whose key starts with the
markdown marker, and — extraction being a pure function of the payload and
the (deterministic) collaborators — two runs over the same payload produce
pairwise identical identifiers and digests. -/
theorem md_extraction_exact_and_deterministic
    (cni dig : String → String) (nodeId : String) (payload : JEntries) :
    (extractMdNodes cni dig nodeId payload).length = mdFieldCount payload
    ∧ List.Forall₂ (fun a b => a.id = b.id ∧ a.digest = b.digest)
        (extractMdNodes cni dig nodeId payload)
        (extractMdNodes cni dig nodeId payload) := by
  constructor
  · have h := congrArg List.length
      (createFieldsForObject_keyPaths cni dig nodeId payload (nodeId ++ "_") [])
    rw [List.length_map] at h
    rw [extractMdNodes, h, mdFieldPaths_length]
  · rw [List.forall₂_same]
    intro x _
    exact ⟨rfl, rfl⟩

/-- Claim C6: the digest attached to a derived markdown node is the digest
collaborator applied to that node's content, so across any two extraction
runs equal markdown content yields equal digests, and — the digest
collaborator being content-addressing, i.e. injective — differing content
yields differing digests. -/
theorem digest_content_addressing
    (cni₁ cni₂ dig : String → String) (pid₁ pid₂ : String)
    (o₁ o₂ : JEntries) (path₁ path₂ : String) (kp₁ kp₂ : List String)
    (n₁ n₂ : MdNode)
    (h₁ : n₁ ∈ createFieldsForObject cni₁ dig pid₁ o₁ path₁ kp₁)
    (h₂ : n₂ ∈ createFieldsForObject cni₂ dig pid₂ o₂ path₂ kp₂) :
    (n₁.content = n₂.content → n₁.digest = n₂.digest)
    ∧ (Function.Injective dig → n₁.digest = n₂.digest →
        n₁.content = n₂.content) := by
  have hd₁ := digest_eq_of_mem cni₁ dig pid₁ o₁ path₁ kp₁ n₁ h₁
  have hd₂ := digest_eq_of_mem cni₂ dig pid₂ o₂ path₂ kp₂ n₂ h₂
  constructor
  · intro hc
    rw [hd₁, hd₂, hc]
  · intro hinj hdig
    exact hinj (by rw [← hd₁, ← hd₂, hdig])

/-- Witness for the digest content-addressing statement: two single-field
payloads on different nodes with the same markdown content, extracted with
the identity collaborators. -/
theorem digest_content_addressing_witness :
    (({ id := "A_mdX", key := "mdX", parent := "A", content := "hello",
        digest := "hello", keyPath := ["mdX"] } : MdNode).content
        = ({ id := "B_mdY", key := "mdY", parent := "B", content := "hello",
             digest := "hello", keyPath := ["mdY"] } : MdNode).content
      → ({ id := "A_mdX", key := "mdX", parent := "A", content := "hello",
           digest := "hello", keyPath := ["mdX"] } : MdNode).digest
        = ({ id := "B_mdY", key := "mdY", parent := "B", content := "hello",
             digest := "hello", keyPath := ["mdY"] } : MdNode).digest)
    ∧ (Function.Injective (fun s : String => s)
      → ({ id := "A_mdX", key := "mdX", parent := "A", content := "hello",
           digest := "hello", keyPath := ["mdX"] } : MdNode).digest
        = ({ id := "B_mdY", key := "mdY", parent := "B", content := "hello",
             digest := "hello", keyPath := ["mdY"] } : MdNode).digest
      → ({ id := "A_mdX", key := "mdX", parent := "A", content := "hello",
           digest := "hello", keyPath := ["mdX"] } : MdNode).content
        = ({ id := "B_mdY", key := "mdY", parent := "B", content := "hello",
             digest := "hello", keyPath := ["mdY"] } : MdNode).content) :=
  digest_content_addressing (fun s => s) (fun s => s) (fun s => s) "A" "B"
    (.strCons "mdX" "hello" .nil) (.strCons "mdY" "hello" .nil)
    "A_" "B_" [] [] _ _ (by decide) (by decide)

/-- Claim C9: the marker check is on the key alone, never on the value: an
entry whose key starts with `"md"` and whose value is the empty string
still yields a derived markdown node (with empty content), and replacing
the value of such an entry by the empty string never changes how many
nodes are created. -/
theorem md_marker_checks_key_not_value
    (cni dig : String → String) (pid : String) (k s : String) (rest : JEntries)
    (path : String) (kp : List String)
    (hk : jsStartsWith k "md" = true) :
    (createFieldsForObject cni dig pid (.strCons k s rest) path kp).length
      = (createFieldsForObject cni dig pid (.strCons k "" rest) path kp).length
    ∧ ∃ n ∈ createFieldsForObject cni dig pid (.strCons k "" rest) path kp,
        n.key = k ∧ n.content = "" := by
  constructor
  · simp [createFieldsForObject, hk]
  · exact ⟨{ id := cni (path ++ k), key := k, parent := pid, content := "",
             digest := dig "", keyPath := kp ++ [k] },
      by simp [createFieldsForObject, hk], rfl, rfl⟩

/-- Witness for the empty-string extraction statement, on the payload
`{ "mdBody": "" }` of a node with id `"N"`. -/
theorem md_marker_checks_key_not_value_witness :
    (createFieldsForObject (fun p => p) (fun c => c) "N"
        (.strCons "mdBody" "text" .nil) "N_" []).length
      = (createFieldsForObject (fun p => p) (fun c => c) "N"
          (.strCons "mdBody" "" .nil) "N_" []).length
    ∧ ∃ n ∈ createFieldsForObject (fun p => p) (fun c => c) "N"
          (.strCons "mdBody" "" .nil) "N_" [],
        n.key = "mdBody" ∧ n.content = "" :=
  md_marker_checks_key_not_value (fun p => p) (fun c => c) "N" "mdBody"
    "text" .nil "N_" [] (by decide)

/-- Claim C3: for any query results, the number of listing pages equals
`ceil(N/P)` (`P = 10` for announcements/blog, `P = 15` for news); the page
at index 0 has the unsuffixed base path, the page at index `k > 0` has the
base path suffixed `/(k+1)`, and the skip offset in page `k`'s context is
`k * P` (the full route of every listing page is computed). -/
theorem pagination_matches_spec (mediaType title : String)
    (results newsResults : List MediaQueryNode) :
    (mediaListRoutes mediaType title results).length = ceilDiv results.length 10
    ∧ (∀ k, k < (mediaListRoutes mediaType title results).length →
        (mediaListRoutes mediaType title results)[k]? = some
          { path := if k = 0 then "/media/" ++ mediaType
                    else "/media/" ++ mediaType ++ "/" ++ toString (k + 1),
            component := "src/templates/media-list.tsx",
            context := .mediaListCtx 10 (k * 10) mediaType title
              (ceilDiv results.length 10) (k + 1) ("/media/" ++ mediaType)
              ("/media/" ++ mediaType ++
                (if k > 0 then "/" ++ toString (k + 1) else "")) })
    ∧ (newsListRoutes newsResults).length = ceilDiv newsResults.length 15
    ∧ (∀ k, k < (newsListRoutes newsResults).length →
        (newsListRoutes newsResults)[k]? = some
          { path := if k = 0 then "/media/news"
                    else "/media/news/" ++ toString (k + 1),
            component := "src/templates/news-list.tsx",
            context := .newsListCtx 15 (k * 15) (ceilDiv newsResults.length 15)
              (k + 1) "/media/news"
              ("/media/news" ++
                (if k > 0 then "/" ++ toString (k + 1) else "")) }) := by
  have hm : (mediaListRoutes mediaType title results).length
      = (results.length + 10 - 1) / 10 := by
    simp [mediaListRoutes, pageSize]
  have hn : (newsListRoutes newsResults).length
      = (newsResults.length + 15 - 1) / 15 := by
    simp [newsListRoutes]
  have hcm : (results.length + 10 - 1) / 10 = ceilDiv results.length 10 := by
    by_cases h : results.length % 10 = 0
    · simp [ceilDiv, h]
      omega
    · simp [ceilDiv, h]
      omega
  have hcn : (newsResults.length + 15 - 1) / 15
      = ceilDiv newsResults.length 15 := by
    by_cases h : newsResults.length % 15 = 0
    · simp [ceilDiv, h]
      omega
    · simp [ceilDiv, h]
      omega
  refine ⟨hm.trans hcm, ?_, hn.trans hcn, ?_⟩
  · intro k hk
    rw [hm] at hk
    simp only [mediaListRoutes, pageSize, List.getElem?_map,
      List.getElem?_range hk, Option.map_some]
    rw [hcm]
    rfl
  · intro k hk
    rw [hn] at hk
    simp only [newsListRoutes, List.getElem?_map,
      List.getElem?_range hk, Option.map_some]
    rw [hcn]
    rfl

/-- Witness for the pagination statement: with 12 blog items, page index 1
exists and is the route `/media/blog/2` with skip offset 10. -/
theorem pagination_matches_spec_witness :
    1 < (mediaListRoutes "blog" "Blog" twelveItems).length
    ∧ (mediaListRoutes "blog" "Blog" twelveItems)[1]? = some
        { path := "/media/blog/2",
          component := "src/templates/media-list.tsx",
          context := .mediaListCtx 10 10 "blog" "Blog" 2 2 "/media/blog"
            "/media/blog/2" } :=
  ⟨by decide, by
    have h := (pagination_matches_spec "blog" "Blog" twelveItems twelveItems).2.1
      1 (by decide)
    exact h.trans (by decide)⟩

/-- Claim C10: a media category (or the news phase) whose query returns
zero items creates zero listing pages — not even the unsuffixed base page —
because the page count `ceil(0/P)` is 0. -/
theorem empty_category_zero_listing_pages (mediaType title : String) :
    mediaListRoutes mediaType title [] = [] ∧ newsListRoutes [] = [] :=
  ⟨rfl, rfl⟩

/-- Claim C1, code bug: the Phase B query selects only `fields { slug }`,
and `onCreateNode` never creates an `externalLink` field, so
`results[i].fields.externalLink` is always `undefined` and the exclusion
guard never fires.  On 12 blog items of which item 7 carries an external
link, the code emits 2 listing pages but 12 detail pages — one per query
result, not the 11 the specification requires; in general every query
result receives a detail page. -/
theorem externalLink_guard_never_excludes :
    (mediaListRoutes "blog" "Blog" (blogItems12.map projectFields)).length = 2
    ∧ (mediaDetailRoutes "blog" (blogItems12.map projectFields)).length = 12
    ∧ (blogItems12.countP fun item => item.externalLink = none) = 11
    ∧ (∀ results : List MediaQueryNode,
        (mediaDetailRoutes "blog" results).length = results.length) := by
  refine ⟨by decide, by decide, by decide, ?_⟩
  intro results
  simp [mediaDetailRoutes, MediaQueryFields.externalLink, truthyStr]

/-- Claim C4: a query error on one media category (announcements) only
skips that category — blog and news routes are still generated and no
error is raised — while a query error in the static-pages phase aborts
with no page generated at all, and a query error in the news phase raises
after the static and media routes, generating no news route. -/
theorem query_failure_policy :
    (∀ (q : QueryInputs) (ps : List PageNode)
        (blogRs newsRs : List MediaQueryNode) (e : String),
      q.pagesQuery = .ok ps →
      q.mediaQuery "announcements" = .error e →
      q.mediaQuery "blog" = .ok blogRs →
      q.newsQuery = .ok newsRs →
      createPages q = (staticPages ps
        ++ (mediaListRoutes "blog" "Blog" blogRs
            ++ mediaDetailRoutes "blog" blogRs)
        ++ newsListRoutes newsRs, none))
    ∧ (∀ (q : QueryInputs) (e : String),
      q.pagesQuery = .error e →
      createPages q = ([], some .fetchPagesFailed))
    ∧ (∀ (q : QueryInputs) (ps : List PageNode) (e : String),
      q.pagesQuery = .ok ps →
      q.newsQuery = .error e →
      createPages q = (staticPages ps
        ++ (mediaTypes.flatMap fun mt =>
          match q.mediaQuery mt.1 with
          | .error _ => []
          | .ok results =>
              mediaListRoutes mt.1 mt.2 results
                ++ mediaDetailRoutes mt.1 results),
        some .fetchNewsFailed)) := by
  refine ⟨?_, ?_, ?_⟩
  · intro q ps blogRs newsRs e hp ha hb hn
    simp [createPages, hp, ha, hb, hn, mediaTypes]
  · intro q e hp
    simp [createPages, hp]
  · intro q ps e hp hn
    simp [createPages, hp, hn]

/-- Witness for the query-failure policy at concrete query outcomes: a
failing announcements query still yields the blog and news routes with no
abort; a failing pages query aborts with nothing; a failing news query
aborts after the earlier phases. -/
theorem query_failure_policy_witness :
    createPages qAnnouncementsFail = (staticPages []
        ++ (mediaListRoutes "blog" "Blog" [] ++ mediaDetailRoutes "blog" [])
        ++ newsListRoutes [], none)
    ∧ createPages qPagesFail = ([], some .fetchPagesFailed)
    ∧ createPages qNewsFail = (staticPages []
        ++ (mediaTypes.flatMap fun mt =>
          match qNewsFail.mediaQuery mt.1 with
          | .error _ => []
          | .ok results =>
              mediaListRoutes mt.1 mt.2 results
                ++ mediaDetailRoutes mt.1 results),
        some .fetchNewsFailed) :=
  ⟨query_failure_policy.1 qAnnouncementsFail [] [] [] "query failed"
      rfl rfl rfl rfl,
   query_failure_policy.2.1 qPagesFail "query failed" rfl,
   query_failure_policy.2.2 qNewsFail [] "query failed" rfl rfl⟩

/-- Claim C7: for a node of a recognised slug type whose parent file node
resolves, the attached `slug` field's value is exactly the parent file's
base name; when the parent cannot be resolved, a warning is logged, no
slug field is attached, and the hook returns normally (the build is not
aborted — `onCreateNode` completes with only the warning). -/
theorem slug_equals_parent_file_name
    (getNode : String → Option FileNode) (cni dig : String → String)
    (loadNodeContent : Except String String)
    (optimize : String → Except String String) (node : GNode) :
    (∀ fileNode, typesToSlug.contains node.internalType = true →
      getNode node.parent = some fileNode →
      slugPhase getNode node
        = ([.createNodeField node.id "slug" fileNode.name], false))
    ∧ (typesToSlug.contains node.internalType = true →
      getNode node.parent = none →
      onCreateNode getNode cni dig loadNodeContent optimize node
        = [.warn ("Parent file node not found for node: " ++ node.id)]) := by
  constructor
  · intro fileNode ht hg
    simp at ht
    simp [slugPhase, ht, hg]
  · intro ht hg
    simp at ht
    simp [onCreateNode, slugPhase, ht, hg]

/-- Witness for the slug contract on a concrete `PagesJson` node: with a
resolvable parent named `"about"` the slug field value is `"about"`; with
an unresolvable parent the hook yields only the warning. -/
theorem slug_equals_parent_file_name_witness :
    slugPhase (fun _ => some ⟨"about"⟩) slugNodeW
      = ([.createNodeField "n1" "slug" "about"], false)
    ∧ onCreateNode (fun _ => none) (fun p => p) (fun c => c) (.ok "")
        (fun c => .ok c) slugNodeW
      = [.warn ("Parent file node not found for node: " ++ "n1")] :=
  ⟨(slug_equals_parent_file_name (fun _ => some ⟨"about"⟩) (fun p => p)
      (fun c => c) (.ok "") (fun c => .ok c) slugNodeW).1 ⟨"about"⟩
      (by decide) rfl,
   (slug_equals_parent_file_name (fun _ => none) (fun p => p) (fun c => c)
      (.ok "") (fun c => .ok c) slugNodeW).2 (by decide) rfl⟩

/-- Claim C8: for an SVG node whose load fails, whose loaded content is
empty, or whose optimisation fails, the phase creates zero `InlineSvg`
nodes and yields exactly one logged diagnostic; no exception escapes (the
phase returns a plain effect list in every case, so the pass continues to
the next node). -/
theorem svg_failure_containment
    (cni dig : String → String) (optimize : String → Except String String)
    (node : GNode) (hm : node.mediaType = some "image/svg+xml") :
    (∀ e, svgPhase cni dig (.error e) optimize node
      = [.logError ("Error processing SVG file " ++ node.id ++ ": " ++ e)])
    ∧ (svgPhase cni dig (.ok "") optimize node
      = [.warn ("Empty content for SVG file: " ++ node.id)])
    ∧ (∀ fileContent e, fileContent ≠ "" → optimize fileContent = .error e →
      svgPhase cni dig (.ok fileContent) optimize node
        = [.logError ("Error processing SVG file " ++ node.id ++ ": " ++ e)]) := by
  refine ⟨?_, ?_, ?_⟩
  · intro e
    simp [svgPhase, hm]
  · simp [svgPhase, hm]
  · intro fileContent e hne hopt
    simp [svgPhase, hm, hne, hopt]

/-- Witness for SVG failure containment on a concrete SVG node, under a
failed load, an empty load, and a failed optimisation. -/
theorem svg_failure_containment_witness :
    svgPhase (fun p => p) (fun c => c) (.error "load failed")
        (fun _ => .error "bad svg") svgNodeW
      = [.logError ("Error processing SVG file " ++ "svg1" ++ ": "
          ++ "load failed")]
    ∧ svgPhase (fun p => p) (fun c => c) (.ok "")
        (fun _ => .error "bad svg") svgNodeW
      = [.warn ("Empty content for SVG file: " ++ "svg1")]
    ∧ svgPhase (fun p => p) (fun c => c) (.ok "<svg/>")
        (fun _ => .error "bad svg") svgNodeW
      = [.logError ("Error processing SVG file " ++ "svg1" ++ ": "
          ++ "bad svg")] :=
  ⟨(svg_failure_containment (fun p => p) (fun c => c)
      (fun _ => .error "bad svg") svgNodeW rfl).1 "load failed",
   (svg_failure_containment (fun p => p) (fun c => c)
      (fun _ => .error "bad svg") svgNodeW rfl).2.1,
   (svg_failure_containment (fun p => p) (fun c => c)
      (fun _ => .error "bad svg") svgNodeW rfl).2.2 "<svg/>" "bad svg"
      (by decide) rfl⟩

end GatsbyNode
